import Mathlib

/-!
Verification development for the "Automate-Credit-Card-Offers" repository.

The repository contains Selenium-based scrapers that enroll card offers and
record rows into a Google-Sheets sink:
  * `src/unnamed/part_000` — the Chase script (second, rewritten half is the
    live program: buffered writer, per-account enrollment loop, orchestrator);
  * `src/amex/Amex-Offers.py` — the Amex script (micro-batched writer,
    `normalize_exp`, `infer_brand_from_text`, `dedupe_rows`, `robust_get`).

This file shallowly embeds the pure logic of those programs: text parsing is
embedded via a small total backtracking regex engine (the Python sources use
`re.search`); effectful loops are embedded as functions over explicit input
traces (what the DOM / sink returns at each step).  Machine dates are modelled
on the proleptic Gregorian calendar exactly as Python's `datetime` library
computes them.
-/

set_option autoImplicit false

namespace Offers

/-! ## Python character and string helpers -/

/-- Python `\s` / `str.strip` whitespace (ASCII range, as produced by DOM text):
space, tab, newline, carriage return, vertical tab, form feed. -/
def pyIsSpace (c : Char) : Bool :=
  c = ' ' || c = '\t' || c = '\n' || c = '\x0d' || c = '\x0b' || c = '\x0c'

/-- ASCII lower-casing, used for the `re.I` flag and for `.lower()`. -/
def pyLower (c : Char) : Char :=
  if 'A' ≤ c ∧ c ≤ 'Z' then Char.ofNat (c.toNat + 32) else c

def isAsciiDigit (c : Char) : Bool := '0' ≤ c ∧ c ≤ '9'

def isAsciiAlpha (c : Char) : Bool := ('a' ≤ c ∧ c ≤ 'z') || ('A' ≤ c ∧ c ≤ 'Z')

/-- Python `\w` on ASCII text: letters, digits, underscore. -/
def isWordChar (c : Char) : Bool := isAsciiAlpha c || isAsciiDigit c || c = '_'

/-- Python `str.strip()` on a character list. -/
def pyStripL (cs : List Char) : List Char :=
  ((cs.dropWhile pyIsSpace).reverse.dropWhile pyIsSpace).reverse

/-- Python `str.strip()`. -/
def pyStrip (s : String) : String := String.mk (pyStripL s.data)

/-- Digit list to natural number, as Python `int()` on a digit string. -/
def digitsToNat (cs : List Char) : ℕ :=
  cs.foldl (fun a c => a * 10 + (c.toNat - '0'.toNat)) 0

/-- Python `str.splitlines()` restricted to the terminators that occur in DOM
text: `\n`, `\r\n`, `\r`, `\x0b`, `\x0c`.  No trailing empty line is produced. -/
def splitlinesAux : List Char → List Char → List (List Char)
  | [], acc => if acc.isEmpty then [] else [acc.reverse]
  | '\x0d' :: '\n' :: rest, acc => acc.reverse :: splitlinesAux rest []
  | c :: rest, acc =>
    if c = '\n' || c = '\x0d' || c = '\x0b' || c = '\x0c' then
      acc.reverse :: splitlinesAux rest []
    else
      splitlinesAux rest (c :: acc)

def pySplitlines (s : String) : List (List Char) := splitlinesAux s.data []

/-! ## Python dates (`datetime.date`, `timedelta`, `strftime`)

Python's `datetime` uses the proleptic Gregorian calendar with years 1..9999.
`date + timedelta(days=n)` walks the calendar; `strftime("%b %d, %Y")` prints
the abbreviated month name, a zero-padded day, and the unpadded year (as on
the Linux C library the scripts run against). -/

structure PyDate where
  year : ℕ
  month : ℕ
  day : ℕ
  deriving DecidableEq, Repr

def isLeapYear (y : ℕ) : Bool :=
  y % 4 = 0 && (y % 100 ≠ 0 || y % 400 = 0)

def daysInMonth (y m : ℕ) : ℕ :=
  if m = 2 then (if isLeapYear y then 29 else 28)
  else if m = 4 || m = 6 || m = 9 || m = 11 then 30
  else 31

def nextDay (d : PyDate) : PyDate :=
  if d.day < daysInMonth d.year d.month then ⟨d.year, d.month, d.day + 1⟩
  else if d.month < 12 then ⟨d.year, d.month + 1, 1⟩
  else ⟨d.year + 1, 1, 1⟩

/-- Python `d + timedelta(days=n)` (forward only; the scripts only ever add days). -/
def addDays (d : PyDate) : ℕ → PyDate
  | 0 => d
  | n + 1 => nextDay (addDays d n)

def monthAbbrOf : ℕ → List Char
  | 1 => ['J','a','n'] | 2 => ['F','e','b'] | 3 => ['M','a','r']
  | 4 => ['A','p','r'] | 5 => ['M','a','y'] | 6 => ['J','u','n']
  | 7 => ['J','u','l'] | 8 => ['A','u','g'] | 9 => ['S','e','p']
  | 10 => ['O','c','t'] | 11 => ['N','o','v'] | 12 => ['D','e','c']
  | _ => ['B','a','d']

/-- Zero-padded two-digit rendering of the day, as `strftime("%d")`. -/
def pad2 (n : ℕ) : List Char :=
  if n < 10 then '0' :: (toString n).data else (toString n).data

/-- Python `date.strftime("%b %d, %Y")`, the sheet's canonical date format. -/
def strftimeBdY (d : PyDate) : String :=
  String.mk (monthAbbrOf d.month ++ [' '] ++ pad2 d.day ++ [',', ' '] ++ (toString d.year).data)

/-! ## A total backtracking regex engine

The Python sources rely on `re.search`.  We embed each pattern as a sequence of
items; repetition of a character class is expanded into a greedy chain of
`opt` items (present-first, which is exactly greedy backtracking), so the
matcher is structurally recursive on a fuel counter and reduces in the kernel.
Fuel is generous: one unit per matcher step, and a path through a pattern
visits each (expanded) item at most once, so `1000 + 100 * length` is far
beyond any chain our patterns can produce. -/

inductive RxItem : Type where
  | cls1 (p : Char → Bool)
  | lit (ci : Bool) (cs : List Char)
  | alt2 (a b : List RxItem)
  | opt (a : List RxItem)
  | gopen
  | gclose
  | eol
  | bol
  | bword

/-- Does the literal `pat` occur at position `pos` (case-insensitively when
`ci` is set; `ci` literals are stored lower-case)? -/
def litAt (ci : Bool) (pat : List Char) (s : List Char) (pos : ℕ) : Bool :=
  match pat with
  | [] => true
  | c :: rest =>
    match s.get? pos with
    | some d => (if ci then pyLower d = c else d = c) && litAt ci rest s (pos + 1)
    | none => false

/-- One backtracking matching step.  Returns the end position of the first
(leftmost-in-backtracking-order) match of the item sequence starting at `pos`,
together with the span of the capture group if one was closed.  `gs` is the
position at which the currently-open group started. -/
def matchSeq (s : List Char) :
    ℕ → List RxItem → ℕ → Option ℕ → Option (ℕ × ℕ) → Option (ℕ × Option (ℕ × ℕ))
  | 0, _, _, _, _ => none
  | _ + 1, [], pos, _, grp => some (pos, grp)
  | fuel + 1, item :: rest, pos, gs, grp =>
    match item with
    | .cls1 p =>
      match s.get? pos with
      | some c => if p c then matchSeq s fuel rest (pos + 1) gs grp else none
      | none => none
    | .lit ci cs =>
      if litAt ci cs s pos then matchSeq s fuel rest (pos + cs.length) gs grp else none
    | .alt2 a b =>
      (matchSeq s fuel (a ++ rest) pos gs grp) <|> (matchSeq s fuel (b ++ rest) pos gs grp)
    | .opt a =>
      (matchSeq s fuel (a ++ rest) pos gs grp) <|> (matchSeq s fuel rest pos gs grp)
    | .gopen => matchSeq s fuel rest pos (some pos) grp
    | .gclose =>
      match gs with
      | some st => matchSeq s fuel rest pos none (some (st, pos))
      | none => none
    | .eol =>
      if pos = s.length ∨ (pos + 1 = s.length ∧ s.get? pos = some '\n') then
        matchSeq s fuel rest pos gs grp
      else none
    | .bol => if pos = 0 then matchSeq s fuel rest pos gs grp else none
    | .bword =>
      let before := if pos = 0 then false else
        match s.get? (pos - 1) with | some c => isWordChar c | none => false
      let here := match s.get? pos with | some c => isWordChar c | none => false
      if before ≠ here then matchSeq s fuel rest pos gs grp else none

/-- Try a match at `pos`, `pos+1`, ... — `re.search`'s leftmost semantics. -/
def searchAux (s : List Char) (pat : List RxItem) (fuel : ℕ) :
    ℕ → ℕ → Option (ℕ × ℕ × Option (ℕ × ℕ))
  | 0, _ => none
  | rem + 1, pos =>
    match matchSeq s fuel pat pos none none with
    | some (e, g) => some (pos, e, g)
    | none => searchAux s pat fuel rem (pos + 1)

/-- Python `re.search(pattern, s)`: the pattern builder receives the string length so
unbounded repetitions can be expanded to that bound. -/
def rsearch (patFor : ℕ → List RxItem) (s : List Char) : Option (ℕ × ℕ × Option (ℕ × ℕ)) :=
  searchAux s (patFor s.length) (1000 + 100 * s.length) (s.length + 1) 0

def subStr (s : List Char) (st en : ℕ) : List Char := (s.drop st).take (en - st)

/-- Python `m.group(0)` of `re.search`, or `none` when there is no match. -/
def searchG0 (patFor : ℕ → List RxItem) (s : String) : Option String :=
  match rsearch patFor s.data with
  | some (st, en, _) => some (String.mk (subStr s.data st en))
  | none => none

/-- Python `m.group(1)` of `re.search`, or `none` when there is no match. -/
def searchG1 (patFor : ℕ → List RxItem) (s : String) : Option String :=
  match rsearch patFor s.data with
  | some (_, _, some (gs, ge)) => some (String.mk (subStr s.data gs ge))
  | some (_, _, none) => none
  | none => none

/-- Truthiness of `re.search(pattern, s)`. -/
def hasMatch (patFor : ℕ → List RxItem) (s : String) : Bool :=
  (rsearch patFor s.data).isSome

/-! ### Repetition builders (greedy expansion) -/

/-- Greedy `p{0,n}`: nested present-first options. -/
def optChain (p : Char → Bool) : ℕ → List RxItem
  | 0 => []
  | n + 1 => [RxItem.opt (RxItem.cls1 p :: optChain p n)]

/-- Exactly `n` repetitions of class `p`. -/
def repCls (p : Char → Bool) (n : ℕ) : List RxItem := List.replicate n (RxItem.cls1 p)

/-- Greedy `p*` expanded to the string length `slen`. -/
def clsStar (p : Char → Bool) (slen : ℕ) : List RxItem := optChain p slen

/-- Greedy `p+` expanded to the string length `slen`. -/
def clsPlus (p : Char → Bool) (slen : ℕ) : List RxItem := RxItem.cls1 p :: optChain p slen

/-- Greedy `p{lo,hi}`. -/
def clsRange (p : Char → Bool) (lo hi : ℕ) : List RxItem := repCls p lo ++ optChain p (hi - lo)

/-- Case-insensitive literal (stored lower-case). -/
def ciLit (s : String) : RxItem := RxItem.lit true s.data

/-- Case-sensitive literal. -/
def csLit (s : String) : RxItem := RxItem.lit false s.data

/-- Three-way alternation `a|b|c` preserving left-to-right order. -/
def alt3 (a b c : List RxItem) : RxItem := RxItem.alt2 a [RxItem.alt2 b c]

/-- Five-way alternation preserving left-to-right order. -/
def alt5 (a b c d e : List RxItem) : RxItem :=
  RxItem.alt2 a [RxItem.alt2 b [RxItem.alt2 c [RxItem.alt2 d e]]]

/-! ### Character classes appearing in the sources' patterns -/

def isSepChar (c : Char) : Bool := c = ',' || c = ' '

def isDotChar (c : Char) : Bool := c ≠ '\n'

def isNotDollar (c : Char) : Bool := c ≠ '$'

def isDigitComma (c : Char) : Bool := isAsciiDigit c || c = ','

def isUpperAZ (c : Char) : Bool := 'A' ≤ c ∧ c ≤ 'Z'

def isAlphaOrWs (c : Char) : Bool := isAsciiAlpha c || pyIsSpace c

def isLetterS (c : Char) : Bool := pyLower c = 's'

def isMorm (c : Char) : Bool := c = 'M' || c = 'm'

/-- The fragment `(?:\.\d{2})?` common to the money patterns. -/
def dotDD : RxItem := RxItem.opt [csLit ".", RxItem.cls1 isAsciiDigit, RxItem.cls1 isAsciiDigit]

/-! ### The sources' patterns -/

/-- Chase `(\d+)\s+days` with `re.I` (in `try_parse_date_any`). -/
def daysPat (n : ℕ) : List RxItem :=
  [RxItem.gopen] ++ clsPlus isAsciiDigit n ++ [RxItem.gclose] ++
    clsPlus pyIsSpace n ++ [ciLit "days"]

/-- The date alternative `[A-Za-z]{3,9}\s+\d{1,2},\s*\d{2,4}`. -/
def wordDateSeq (n : ℕ) : List RxItem :=
  clsRange isAsciiAlpha 3 9 ++ clsPlus pyIsSpace n ++ clsRange isAsciiDigit 1 2 ++
    [csLit ","] ++ clsStar pyIsSpace n ++ clsRange isAsciiDigit 2 4

/-- The date alternative `\d{1,2}/\d{1,2}/\d{2,4}`. -/
def slashDateSeq : List RxItem :=
  clsRange isAsciiDigit 1 2 ++ [csLit "/"] ++ clsRange isAsciiDigit 1 2 ++
    [csLit "/"] ++ clsRange isAsciiDigit 2 4

/-- Chase expiration pattern
`(?:Expires?|Offer expires|Exp\.)\s*(?:on\s*)?([A-Za-z]{3,9}\s+\d{1,2},\s*\d{2,4}|\d{1,2}/\d{1,2}/\d{2,4})`
with `re.I` (in `parse_limits_local_expiration`). -/
def exp1Pat (n : ℕ) : List RxItem :=
  [alt3 [ciLit "expire", RxItem.opt [RxItem.cls1 isLetterS]] [ciLit "offer expires"] [ciLit "exp."]] ++
    clsStar pyIsSpace n ++
    [RxItem.opt ([ciLit "on"] ++ clsStar pyIsSpace n)] ++
    [RxItem.gopen, RxItem.alt2 (wordDateSeq n) slashDateSeq, RxItem.gclose]

/-- Chase relative pattern `expires?\s+in\s+\d+\s+days` with `re.I`. -/
def exp2Pat (n : ℕ) : List RxItem :=
  [ciLit "expire", RxItem.opt [RxItem.cls1 isLetterS]] ++ clsPlus pyIsSpace n ++
    [ciLit "in"] ++ clsPlus pyIsSpace n ++ clsPlus isAsciiDigit n ++
    clsPlus pyIsSpace n ++ [ciLit "days"]

/-- Chase `\$\s?([\d,]+(?:\.\d{2})?)\s*(?:cash\s*back\s*)?(?:maximum|max)\b` with `re.I`. -/
def maxd1Pat (n : ℕ) : List RxItem :=
  [csLit "$", RxItem.opt [RxItem.cls1 pyIsSpace], RxItem.gopen] ++
    clsPlus isDigitComma n ++ [dotDD, RxItem.gclose] ++ clsStar pyIsSpace n ++
    [RxItem.opt ([ciLit "cash"] ++ clsStar pyIsSpace n ++ [ciLit "back"] ++ clsStar pyIsSpace n)] ++
    [RxItem.alt2 [ciLit "maximum"] [ciLit "max"], RxItem.bword]

/-- Chase `[Mm]ax(?:imum)?[^$]{0,25}\$(\d[\d,]*(?:\.\d{2})?)` (no flags). -/
def maxd2Pat (n : ℕ) : List RxItem :=
  [RxItem.cls1 isMorm, csLit "ax", RxItem.opt [csLit "imum"]] ++
    clsRange isNotDollar 0 25 ++
    [csLit "$", RxItem.gopen, RxItem.cls1 isAsciiDigit] ++ clsStar isDigitComma n ++
    [dotDD, RxItem.gclose]

/-- Chase `(?:spend|purchase)[^$]{0,25}\$(\d[\d,]*(?:\.\d{2})?)` with `re.I`. -/
def mindPat (n : ℕ) : List RxItem :=
  [RxItem.alt2 [ciLit "spend"] [ciLit "purchase"]] ++ clsRange isNotDollar 0 25 ++
    [csLit "$", RxItem.gopen, RxItem.cls1 isAsciiDigit] ++ clsStar isDigitComma n ++
    [dotDD, RxItem.gclose]

/-- Chase `\$(\d[\d,]*(?:\.\d{2})?)` applied to the header limit text. -/
def hdrMoneyPat (n : ℕ) : List RxItem :=
  [csLit "$", RxItem.gopen, RxItem.cls1 isAsciiDigit] ++ clsStar isDigitComma n ++
    [dotDD, RxItem.gclose]

/-- Chase `Offer only applies to the following location` with `re.I`. -/
def localPhrasePat (_ : ℕ) : List RxItem :=
  [ciLit "offer only applies to the following location"]

/-- Chase `\n\d{2,5}\s+.+\n[A-Za-z\s]+,\s*[A-Z]{2}\s+\d{5}` (no flags). -/
def localAddrPat (n : ℕ) : List RxItem :=
  [csLit "\n"] ++ clsRange isAsciiDigit 2 5 ++ clsPlus pyIsSpace n ++
    clsPlus isDotChar n ++ [csLit "\n"] ++ clsPlus isAlphaOrWs n ++
    [csLit ","] ++ clsStar pyIsSpace n ++
    [RxItem.cls1 isUpperAZ, RxItem.cls1 isUpperAZ] ++ clsPlus pyIsSpace n ++
    repCls isAsciiDigit 5

/-- Chase brand filter `cash\s*back|\$\d` with `re.I` (the correctly written
occurrences in `extract_brand_smart`). -/
def brandFilterPat (n : ℕ) : List RxItem :=
  [RxItem.alt2 ([ciLit "cash"] ++ clsStar pyIsSpace n ++ [ciLit "back"])
    [csLit "$", RxItem.cls1 isAsciiDigit]]

/-- Chase brand filter as written on the JS path: the raw string
`r"cash\\s*back|\\$\\d"` doubles every backslash, so the regex is
`cash` + literal backslash + `s*` + `back`, or literal backslash + `$` +
literal backslash + `d` — it can only match text containing backslashes. -/
def brandFilterBrokenPat (n : ℕ) : List RxItem :=
  [RxItem.alt2 ([ciLit "cash", csLit "\\"] ++ clsStar isLetterS n ++ [ciLit "back"])
    [csLit "\\", RxItem.eol, csLit "\\", ciLit "d"]]

/-- Chase heading filter `cash\s*back|\$\d|about this deal` with `re.I`. -/
def headFilterPat (n : ℕ) : List RxItem :=
  [alt3 ([ciLit "cash"] ++ clsStar pyIsSpace n ++ [ciLit "back"])
    [csLit "$", RxItem.cls1 isAsciiDigit]
    [ciLit "about this deal"]]

/-- Amex `MONEY_RE = \$[\d,]+(?:\.\d{2})?` (no flags). -/
def moneyPat (n : ℕ) : List RxItem :=
  [csLit "$"] ++ clsPlus isDigitComma n ++ [dotDD]

/-- Amex `^Expires\b|^Spend\b|^Earn\b|View Details|Terms apply` with `re.I`
(first skip rule of `infer_brand_from_text`). -/
def inferSkipPat (_ : ℕ) : List RxItem :=
  [alt5 [RxItem.bol, ciLit "expires", RxItem.bword]
    [RxItem.bol, ciLit "spend", RxItem.bword]
    [RxItem.bol, ciLit "earn", RxItem.bword]
    [ciLit "view details"]
    [ciLit "terms apply"]]

/-- Amex `back|spend|earn|total|expires` with `re.I`. -/
def inferKeywordPat (_ : ℕ) : List RxItem :=
  [alt5 [ciLit "back"] [ciLit "spend"] [ciLit "earn"] [ciLit "total"] [ciLit "expires"]]

/-- Amex `Expires[, ]+(.+)$` with `re.I` (recursion step of `normalize_exp`). -/
def expiresTailPat (n : ℕ) : List RxItem :=
  [ciLit "expires"] ++ clsPlus isSepChar n ++
    [RxItem.gopen] ++ clsPlus isDotChar n ++ [RxItem.gclose, RxItem.eol]

/-- Amex `([A-Za-z]{3,9}\s+\d{1,2},\s*\d{2,4})` (no flags). -/
def monthNamePat (n : ℕ) : List RxItem :=
  [RxItem.gopen] ++ wordDateSeq n ++ [RxItem.gclose]

/-! ## Python `strptime` for the formats the sources use

`datetime.strptime` compiles a format into a regex (with `re.IGNORECASE`)
that must consume the whole input: `%m` is `(1[0-2]|0[1-9]|[1-9])`, `%d` is
`(3[01]|[12]\d|0[1-9]|[1-9])`, `%Y` is `\d\d\d\d`, `%y` is `\d\d` (mapped to
1969–2068), `%b`/`%B` are the month names, a space is `\s+`, and the result
must be a valid calendar date. -/

def digitVal (c : Char) : ℕ := c.toNat - '0'.toNat

/-- Candidates for `%m` in the regex's alternation order, with the rest of
the input after each candidate. -/
def monthCands : List Char → List (ℕ × List Char)
  | c1 :: c2 :: rest =>
    (if c1 = '1' ∧ ('0' ≤ c2 ∧ c2 ≤ '2') then [(10 + digitVal c2, rest)] else []) ++
    (if c1 = '0' ∧ ('1' ≤ c2 ∧ c2 ≤ '9') then [(digitVal c2, rest)] else []) ++
    (if '1' ≤ c1 ∧ c1 ≤ '9' then [(digitVal c1, c2 :: rest)] else [])
  | [c1] => if '1' ≤ c1 ∧ c1 ≤ '9' then [(digitVal c1, ([] : List Char))] else []
  | [] => []

/-- Candidates for `%d` in the regex's alternation order. -/
def dayCands : List Char → List (ℕ × List Char)
  | c1 :: c2 :: rest =>
    (if c1 = '3' ∧ (c2 = '0' ∨ c2 = '1') then [(30 + digitVal c2, rest)] else []) ++
    (if (c1 = '1' ∨ c1 = '2') ∧ isAsciiDigit c2 then [(10 * digitVal c1 + digitVal c2, rest)] else []) ++
    (if c1 = '0' ∧ ('1' ≤ c2 ∧ c2 ≤ '9') then [(digitVal c2, rest)] else []) ++
    (if '1' ≤ c1 ∧ c1 ≤ '9' then [(digitVal c1, c2 :: rest)] else [])
  | [c1] => if '1' ≤ c1 ∧ c1 ≤ '9' then [(digitVal c1, ([] : List Char))] else []
  | [] => []

/-- Python `datetime(y, m, d)` validation: years 1–9999 and a real calendar day. -/
def mkValidDate (y m d : ℕ) : Option PyDate :=
  if 1 ≤ y ∧ y ≤ 9999 ∧ 1 ≤ d ∧ d ≤ daysInMonth y m then some ⟨y, m, d⟩ else none

/-- Python `%Y` at the end of the input: exactly four digits and nothing after. -/
def year4End : List Char → Option ℕ
  | [a, b, c, d] =>
    if isAsciiDigit a ∧ isAsciiDigit b ∧ isAsciiDigit c ∧ isAsciiDigit d then
      some (digitVal a * 1000 + digitVal b * 100 + digitVal c * 10 + digitVal d)
    else none
  | _ => none

/-- Python `%y` at the end of the input: exactly two digits, mapped to 1969–2068. -/
def year2End : List Char → Option ℕ
  | [a, b] =>
    if isAsciiDigit a ∧ isAsciiDigit b then
      let v := digitVal a * 10 + digitVal b
      some (if v ≤ 68 then 2000 + v else 1900 + v)
    else none
  | _ => none

/-- At least one whitespace character (`\s+` from a space in the format). -/
def wsPlus1 : List Char → Option (List Char)
  | c :: rest => if pyIsSpace c then some (rest.dropWhile pyIsSpace) else none
  | [] => none

/-- Case-insensitive word at the front (for month names), returning the rest. -/
def dropCIWord (w : List Char) (s : List Char) : Option (List Char) :=
  match w, s with
  | [], rest => some rest
  | _ :: _, [] => none
  | c :: wr, d :: sr => if pyLower d = c then dropCIWord wr sr else none

def monthAbbrNames : List (ℕ × List Char) :=
  [(1, ['j','a','n']), (2, ['f','e','b']), (3, ['m','a','r']), (4, ['a','p','r']),
   (5, ['m','a','y']), (6, ['j','u','n']), (7, ['j','u','l']), (8, ['a','u','g']),
   (9, ['s','e','p']), (10, ['o','c','t']), (11, ['n','o','v']), (12, ['d','e','c'])]

def monthFullNames : List (ℕ × List Char) :=
  [(9, ['s','e','p','t','e','m','b','e','r']),
   (2, ['f','e','b','r','u','a','r','y']),
   (11, ['n','o','v','e','m','b','e','r']),
   (12, ['d','e','c','e','m','b','e','r']),
   (1, ['j','a','n','u','a','r','y']),
   (10, ['o','c','t','o','b','e','r']),
   (8, ['a','u','g','u','s','t']),
   (3, ['m','a','r','c','h']),
   (4, ['a','p','r','i','l']),
   (6, ['j','u','n','e']),
   (7, ['j','u','l','y']),
   (5, ['m','a','y'])]

def monthByName (names : List (ℕ × List Char)) (s : List Char) : Option (ℕ × List Char) :=
  names.findSome? fun mv =>
    match dropCIWord mv.2 s with
    | some rest => some (mv.1, rest)
    | none => none

/-- Shared tail `" %d, %Y"` / `" %d, %y"` of the month-name formats. -/
def dayCommaYear (twoDigitYear : Bool) (afterMonth : List Char) : Option (ℕ × ℕ) :=
  match wsPlus1 afterMonth with
  | none => none
  | some r1 =>
    (dayCands r1).findSome? fun dc =>
      match dc.2 with
      | ',' :: r2 =>
        match wsPlus1 r2 with
        | none => none
        | some r3 =>
          match (if twoDigitYear then year2End r3 else year4End r3) with
          | some y => some (dc.1, y)
          | none => none
      | _ => none

/-- Python `strptime(s, "%b %d, %Y")` (abbreviated month). -/
def strptimeAbbrY (s : List Char) : Option PyDate :=
  match monthByName monthAbbrNames s with
  | some (m, rest) =>
    match dayCommaYear false rest with
    | some (d, y) => mkValidDate y m d
    | none => none
  | none => none

/-- Python `strptime(s, "%B %d, %Y")` (full month). -/
def strptimeFullY (s : List Char) : Option PyDate :=
  match monthByName monthFullNames s with
  | some (m, rest) =>
    match dayCommaYear false rest with
    | some (d, y) => mkValidDate y m d
    | none => none
  | none => none

/-- Python `strptime(s, "%b %d, %y")`. -/
def strptimeAbbrY2 (s : List Char) : Option PyDate :=
  match monthByName monthAbbrNames s with
  | some (m, rest) =>
    match dayCommaYear true rest with
    | some (d, y) => mkValidDate y m d
    | none => none
  | none => none

/-- Python `strptime(s, "%B %d, %y")`. -/
def strptimeFullY2 (s : List Char) : Option PyDate :=
  match monthByName monthFullNames s with
  | some (m, rest) =>
    match dayCommaYear true rest with
    | some (d, y) => mkValidDate y m d
    | none => none
  | none => none

/-- Shared tail `/%d/` + year of the slash formats. -/
def slashTail (twoDigitYear : Bool) (m : ℕ) (afterMonth : List Char) : Option PyDate :=
  match afterMonth with
  | '/' :: r2 =>
    (dayCands r2).findSome? fun dc =>
      match dc.2 with
      | '/' :: r4 =>
        match (if twoDigitYear then year2End r4 else year4End r4) with
        | some y => mkValidDate y m dc.1
        | none => none
      | _ => none
  | _ => none

/-- Python `strptime(s, "%m/%d/%Y")`. -/
def strptimeMdY (s : List Char) : Option PyDate :=
  (monthCands s).findSome? fun mc => slashTail false mc.1 mc.2

/-- Python `strptime(s, "%m/%d/%y")`. -/
def strptimeMdy (s : List Char) : Option PyDate :=
  (monthCands s).findSome? fun mc => slashTail true mc.1 mc.2

namespace Chase

/-! ## `src/unnamed/part_000` (Chase script, rewritten half) — parsing -/

def BRAND_FALLBACK : String := "Unknown Brand"

/-- Python `try_parse_date_any(s)` (lines 613–627): empty input is `None`; the input
is stripped; the formats `"%b %d, %Y"`, `"%B %d, %Y"`, `"%m/%d/%Y"`,
`"%m/%d/%y"` are tried in order; otherwise a `(\d+)\s+days` match is added to
today's date (`OverflowError` from a huge count is caught and yields `None`:
`timedelta` accepts at most 999999999 days and `datetime` years reach 9999). -/
def try_parse_date_any (today : PyDate) (s : String) : Option PyDate :=
  if s = "" then none
  else
    let t := pyStripL s.data
    match strptimeAbbrY t <|> strptimeFullY t <|> strptimeMdY t <|> strptimeMdy t with
    | some d => some d
    | none =>
      match searchG1 daysPat (String.mk t) with
      | some ds =>
        let n := digitsToNat ds.data
        if n ≤ 999999999 ∧ (addDays today n).year ≤ 9999 then some (addDays today n)
        else none
      | none => none

/-- Python `normalize_date_out(s)` (lines 629–631): format the parsed date as
`"%b %d, %Y"`, or return the empty string.  (`s or ""` maps Python `None` to
`""`; for plain strings it is the identity on parsing behaviour.) -/
def normalize_date_out (today : PyDate) (s : String) : String :=
  match try_parse_date_any today s with
  | some d => strftimeBdY d
  | none => ""

/-- Python `parse_limits_local_expiration(terms_text, hdr_limit)` (lines 701–727):
returns `(maxd, mind or "None", exp, local)`. -/
def parse_limits_local_expiration (today : PyDate) (terms_text : String) (hdr_limit : String) :
    String × String × String × String :=
  let maxd :=
    match searchG1 maxd1Pat terms_text with
    | some g => "$" ++ g
    | none =>
      match searchG1 maxd2Pat terms_text with
      | some g => "$" ++ g
      | none => ""
  let mind :=
    match searchG1 mindPat terms_text with
    | some g => "$" ++ g
    | none =>
      if hdr_limit ≠ "" then
        match searchG1 hdrMoneyPat hdr_limit with
        | some g => "$" ++ g
        | none => ""
      else ""
  let exp :=
    match searchG1 exp1Pat terms_text with
    | some g => normalize_date_out today g
    | none =>
      match searchG0 exp2Pat terms_text with
      | some w => normalize_date_out today w
      | none => ""
  let lc :=
    if hasMatch localPhrasePat terms_text then "Yes"
    else if hasMatch localAddrPat terms_text then "Yes"
    else "No"
  (maxd, (if mind = "" then "None" else mind), exp, lc)

/-- Python `extract_brand_smart(tile_guess)` (lines 729–766), with its DOM reads made
explicit inputs: `jsVal` is the result of the injected script near the
"added to card" marker (empty string when the script yields nothing or
raises); `selTexts` are the `els[0].text` values for the four merchant/brand
selectors (empty string when a selector matches nothing); `headTexts` are the
heading texts.  The JS value is screened with the inert doubled-backslash
regex exactly as written in the source. -/
def selAccepts (t : String) : Bool :=
  pyStrip t ≠ "" && ! hasMatch brandFilterPat (pyStrip t)

def headAccepts (t : String) : Bool :=
  pyStrip t ≠ "" && ! hasMatch headFilterPat (pyStrip t) &&
    decide (2 ≤ (pyStrip t).length) && decide ((pyStrip t).length ≤ 60)

def extract_brand_smart (jsVal : String) (selTexts : List String) (headTexts : List String)
    (tile_guess : String) : String :=
  if jsVal ≠ "" ∧ ¬ hasMatch brandFilterBrokenPat jsVal then pyStrip jsVal
  else
    match selTexts.find? selAccepts with
    | some t => pyStrip t
    | none =>
      match (headTexts.take 6).find? headAccepts with
      | some t => pyStrip t
      | none => if pyStrip tile_guess = "" then BRAND_FALLBACK else pyStrip tile_guess

end Chase

/-! ## `dedupe_rows` (identical in `part_000` lines 1134–1147 and
`Amex-Offers.py` lines 109–119)

`rows = ws.get_all_values()` includes the header at index 0; the scan walks
`i` from `len(rows)-1` down to `1`, keeps the first occurrence it meets (the
sheet's *last* occurrence) and emits one `deleteRange` request per later-met
duplicate; requests are therefore ordered by strictly descending row index
and are executed in order, each deleting a single row and shifting rows up. -/

def dedupeGo {α : Type} [DecidableEq α] (rows : List α) : ℕ → List α → List ℕ
  | 0, _ => []
  | i + 1, seen =>
    match rows.get? (i + 1) with
    | none => dedupeGo rows i seen
    | some key =>
      if key ∈ seen then (i + 1) :: dedupeGo rows i seen
      else dedupeGo rows i (key :: seen)

/-- The list of deleted row indices, in request order (descending). -/
def dedupe_requests {α : Type} [DecidableEq α] (rows : List α) : List ℕ :=
  dedupeGo rows (rows.length - 1) []

/-- Python `dedupe_rows()` returns `len(req)`, the number of deleted rows. -/
def dedupe_rows {α : Type} [DecidableEq α] (rows : List α) : ℕ :=
  (dedupe_requests rows).length

/-- Execute the delete requests in order: each deletes one row and shifts the
rows below it up (`shiftDimension: ROWS`). -/
def applyDeletes {α : Type} (rows : List α) (reqs : List ℕ) : List α :=
  reqs.foldl (fun rs i => rs.eraseIdx i) rows

/-- The sheet contents after `dedupe_rows()`. -/
def sheetAfterDedupe {α : Type} [DecidableEq α] (rows : List α) : List α :=
  applyDeletes rows (dedupe_requests rows)

/-- Modelled from the spec: the *forward*-scan duplicate removal the spec
compares against ("yields exactly one survivor per distinct value …
regardless of scan direction"): scan the rows top to bottom keeping the first
occurrence of each value. -/
def dedupeForwardSurvivors {α : Type} [DecidableEq α] : List α → List α → List α
  | [], _ => []
  | r :: rest, seen =>
    if r ∈ seen then dedupeForwardSurvivors rest seen
    else r :: dedupeForwardSurvivors rest (r :: seen)

namespace Chase

/-! ## The enrollment loop (`enroll_all_offers_for_current_card`, lines
865–998) as a state machine over an input trace

Each `while True` iteration of the source scans the page for add-buttons and
either finds no actionable tile (`TileEvent.empty` — the finder returned an
empty collection, or every visible tile's fingerprint was already processed),
picks a tile whose click fails (`TileEvent.clickFail` — the element is marked
processed and the loop continues), or picks a tile, clicks it and extracts a
row (`TileEvent.extracted row` — detail path and tile-only path both end in
the same guarded queueing).  The source's counters are mirrored exactly:
`idle_cycles` breaks the loop at 3, `safety_clicks` breaks it when the 201st
pick occurs (checked before the click). -/

inductive TileEvent (α : Type) where
  | empty : TileEvent α
  | clickFail : TileEvent α
  | extracted (row : α) : TileEvent α

structure LoopState (α : Type) where
  existing : List α
  perCardKeys : List α
  perCardRows : List α
  idle : ℕ
  safety : ℕ
  deriving DecidableEq

/-- The guarded queueing of an extracted row (lines 966–969 / 980–983):
`if key not in existing_rows and key not in per_card_keys: …`. -/
def queueRow {α : Type} [DecidableEq α] (st : LoopState α) (r : α) : LoopState α :=
  if r ∈ st.existing ∨ r ∈ st.perCardKeys then st
  else { st with perCardRows := st.perCardRows ++ [r],
                 perCardKeys := r :: st.perCardKeys,
                 existing := r :: st.existing }

/-- One loop iteration; the returned flag is `true` when the iteration
executes a `break`. -/
def stepEvent {α : Type} [DecidableEq α] (st : LoopState α) (e : TileEvent α) :
    LoopState α × Bool :=
  match e with
  | .empty =>
    ({ st with idle := st.idle + 1 }, decide (3 ≤ st.idle + 1))
  | .clickFail =>
    let st' := { st with idle := 0, safety := st.safety + 1 }
    (st', decide (200 < st.safety + 1))
  | .extracted r =>
    let st' := { st with idle := 0, safety := st.safety + 1 }
    if 200 < st.safety + 1 then (st', true) else (queueRow st' r, false)

/-- Run the loop over the trace; the flag records whether it stopped via a
`break` (rather than by exhausting the supplied trace). -/
def runLoop {α : Type} [DecidableEq α] : LoopState α → List (TileEvent α) → LoopState α × Bool
  | st, [] => (st, false)
  | st, e :: es =>
    match stepEvent st e with
    | (st', true) => (st', true)
    | (st', false) => runLoop st' es

def initLoopState {α : Type} (existing : List α) : LoopState α := ⟨existing, [], [], 0, 0⟩

/-- The loop body of `enroll_all_offers_for_current_card`: final state after
running the trace from a fresh per-card state over the shared dedup set. -/
def enroll_all_offers_for_current_card {α : Type} [DecidableEq α]
    (existing : List α) (evs : List (TileEvent α)) : LoopState α :=
  (runLoop (initLoopState existing) evs).1

/-! ## Sheet state, per-card persistence and `process_cards` (lines 1091–1115) -/

/-- One card's external inputs: whether `go_to_categories_for` succeeded,
the loop's tile trace, and whether the end-of-card `append_rows` call
succeeded (on failure the rows go to `APPEND_BUFFER`, lines 987–995). -/
structure CardRun (α : Type) where
  navOk : Bool
  events : List (TileEvent α)
  appendOk : Bool

/-- The sink-side state: the worksheet's data rows, the global
`APPEND_BUFFER`, and `CURRENT_CARD_BUFFER`. -/
structure SheetState (α : Type) where
  sink : List α
  buffer : List α
  current : List α
  deriving DecidableEq

/-- One iteration of the card loop: skip on navigation failure, otherwise run
the enrollment loop and persist (or re-buffer) the queued rows.  Returns the
new sheet state, the updated shared dedup set, and the rows queued for this
card. -/
def processCard {α : Type} [DecidableEq α] (st : SheetState α) (existing : List α)
    (c : CardRun α) : SheetState α × List α × List α :=
  if ¬ c.navOk then (st, existing, [])
  else
    let fin := enroll_all_offers_for_current_card existing c.events
    let rows := fin.perCardRows
    if rows = [] then ({ st with current := [] }, fin.existing, [])
    else if c.appendOk then
      ({ st with sink := st.sink ++ rows, current := [] }, fin.existing, rows)
    else
      ({ st with buffer := st.buffer ++ rows, current := rows }, fin.existing, rows)

/-- The fixed account list (lines 294–299). -/
def ACCOUNT_IDS : List String :=
  ["1091891200", "571406113", "504430043", "1095857180"]

/-- Python `process_cards()`: load the dedup baseline once from the sink, then visit
every account id in order; a failed card never aborts the run.  `env i` is
the environment's behaviour for the `i`-th account.  Returns the new sheet
state and, per account, the rows queued for it. -/
def cardsFold {α : Type} [DecidableEq α] (env : ℕ → CardRun α) (idxs : List ℕ)
    (start : SheetState α × List α × List (List α)) : SheetState α × List α × List (List α) :=
  idxs.foldl
    (fun acc i =>
      let r := processCard acc.1 acc.2.1 (env i)
      (r.1, r.2.1, acc.2.2 ++ [r.2.2]))
    start

def process_cards {α : Type} [DecidableEq α] (env : ℕ → CardRun α) (st : SheetState α) :
    SheetState α × List (List α) :=
  let fin := cardsFold env (List.range ACCOUNT_IDS.length) (st, st.sink, [])
  (fin.1, fin.2.2)

/-! ## The batched persistence writer (`flush_buffer`, lines 1164–1183) -/

/-- Split the buffer into chunks of `APPEND_CHUNK_SIZE` (the fuel is the list
length; the source's chunk size is 400, so the fuel is never exhausted for a
positive chunk size). -/
def chunksGo {α : Type} (c : ℕ) : ℕ → List α → List (List α)
  | 0, _ => []
  | _, [] => []
  | f + 1, l => l.take c :: chunksGo c f (l.drop c)

def chunksOf {α : Type} (c : ℕ) (l : List α) : List (List α) := chunksGo c l.length l

/-- Walk the chunks issuing `append_rows` calls; `fails k` tells whether the
`k`-th call raises.  Returns the calls actually made (including the failing
one) and whether an exception occurred. -/
def flushCallsGo {α : Type} (fails : ℕ → Bool) : List (List α) → ℕ → List (List α) × Bool
  | [], _ => ([], false)
  | ch :: rest, k =>
    if fails k then ([ch], true)
    else
      let r := flushCallsGo fails rest (k + 1)
      (ch :: r.1, r.2)

/-- Python `flush_buffer()`: merge `CURRENT_CARD_BUFFER` into `APPEND_BUFFER`; if
empty, do nothing; otherwise append chunk by chunk inside a `try` whose
`finally` clears `APPEND_BUFFER` unconditionally.  Returns the final
`(APPEND_BUFFER, CURRENT_CARD_BUFFER)`, the append calls made, and whether a
sink failure occurred. -/
def flush_buffer {α : Type} (fails : ℕ → Bool) (chunkSize : ℕ) (buf cur : List α) :
    (List α × List α) × List (List α) × Bool :=
  let merged := buf ++ cur
  if merged.isEmpty then ((merged, []), [], false)
  else
    let r := flushCallsGo fails (chunksOf chunkSize merged) 0
    (([], []), r.1, r.2)

/-- The chunks whose `append_rows` call succeeded (a failing call appends
nothing). -/
def flushAppended {α : Type} (calls : List (List α)) (err : Bool) : List (List α) :=
  if err then calls.dropLast else calls

/-! ## `robust_get` (lines 389–411)

Per retry round the source tries `driver.get` (catching
`WebDriverException`) and then the JS `window.location.replace` fallback
(catching every exception); each browser call either succeeds or raises.
`g k` is the outcome of the `k`-th browser call — even indices are direct
navigations, odd indices the script fallback. -/

def robustGetGo (g : ℕ → Bool) : ℕ → ℕ → Bool
  | 0, _ => false
  | t + 1, k => if g k then true else if g (k + 1) then true else robustGetGo g t (k + 2)

/-- Python `robust_get(url, tries)`: `True` as soon as a call succeeds, `False` after
`max(1, tries)` rounds; the function itself never raises. -/
def robust_get (g : ℕ → Bool) (tries : ℕ) : Bool := robustGetGo g (max 1 tries) 0

/-! ## The run orchestrator (`main`, lines 1191–1230) -/

inductive RunOutcome where
  | normal : RunOutcome
  | interrupt : RunOutcome
  | fatal : RunOutcome
  deriving DecidableEq

/-- A whole run's external inputs.  `cutPoint` says how many body stages
(0 = none, 1 = first `process_cards`, 2 = both, 3 = also the maintenance
stage) complete before an interrupt/fatal error strikes; it is ignored for a
normal run. -/
structure RunInput (α : Type) where
  postLoginOk : Bool
  env1 : ℕ → CardRun α
  env2 : ℕ → CardRun α
  outcome : RunOutcome
  cutPoint : ℕ
  flushFails : ℕ → Bool

structure RunResult (α : Type) where
  raised : Bool
  flushed : Bool
  passesRun : ℕ
  queued1 : List (List α)
  queued2 : List (List α)
  sheetAfterPass1 : SheetState α
  final : SheetState α

/-- The `finally` block: `flush_buffer()` runs whatever happened before. -/
def finallyFlush {α : Type} (fails : ℕ → Bool) (st : SheetState α) : SheetState α :=
  let r := flush_buffer fails 400 st.buffer st.current
  { sink := st.sink ++ (flushAppended r.2.1 r.2.2).flatten,
    buffer := r.1.1, current := r.1.2 }

/-- Python `main()`: body inside `try`, `KeyboardInterrupt` and `Exception` handlers
that only log, and a `finally` that flushes.  A failed post-login wait
returns from the body early — through the `finally`. -/
def mainRun {α : Type} [DecidableEq α] (inp : RunInput α) (st0 : SheetState α) : RunResult α :=
  if ¬ inp.postLoginOk then
    { raised := false, flushed := true, passesRun := 0, queued1 := [], queued2 := [],
      sheetAfterPass1 := st0, final := finallyFlush inp.flushFails st0 }
  else
    let stages : ℕ := match inp.outcome with
      | .normal => 3
      | _ => min inp.cutPoint 3
    let p1 := if 1 ≤ stages then process_cards inp.env1 st0 else (st0, [])
    let p2 := if 2 ≤ stages then process_cards inp.env2 p1.1 else (p1.1, [])
    -- stage 3 (normalize_sheet_dates / dedupe_rows / reset_filters) touches
    -- only already-persisted sink rows; the claims below do not depend on it.
    { raised := false, flushed := true,
      passesRun := (if 1 ≤ stages then 1 else 0) + (if 2 ≤ stages then 1 else 0),
      queued1 := p1.2, queued2 := p2.2,
      sheetAfterPass1 := p1.1,
      final := finallyFlush inp.flushFails p2.1 }

end Chase

namespace Amex

/-! ## `src/amex/Amex-Offers.py` — parsing and navigation -/

/-- Python `normalize_exp(raw)` (lines 238–255): strip; try `"%m/%d/%Y"` and
`"%m/%d/%y"`; on an `Expires[, ]+(.+)$` match recurse on the captured tail;
on an `([A-Za-z]{3,9}\s+\d{1,2},\s*\d{2,4})` match try the four month-name
formats on the captured group; otherwise return the (stripped) input
unchanged.  The recursion consumes at least the leading `Expires` separator,
so the length-based fuel can never run out. -/
def normalizeExpGo : ℕ → String → String
  | 0, raw => pyStrip raw
  | fuel + 1, raw =>
    let r := pyStrip raw
    match strptimeMdY r.data <|> strptimeMdy r.data with
    | some d => strftimeBdY d
    | none =>
      match searchG1 expiresTailPat r with
      | some tail => normalizeExpGo fuel tail
      | none =>
        match searchG1 monthNamePat r with
        | some g =>
          match strptimeAbbrY g.data <|> strptimeFullY g.data <|>
              strptimeAbbrY2 g.data <|> strptimeFullY2 g.data with
          | some d => strftimeBdY d
          | none => r
        | none => r

def normalize_exp (raw : String) : String := normalizeExpGo (raw.length + 1) raw

/-- Python `infer_brand_from_text(txt)` (lines 269–277): strip and drop blank lines,
look at the first six, skip boilerplate lines and money-plus-keyword lines,
return the first surviving line, else the sentinel. -/
def lineAccepts (l : List Char) : Bool :=
  ! hasMatch inferSkipPat (String.mk l) &&
    ! (hasMatch moneyPat (String.mk l) && hasMatch inferKeywordPat (String.mk l))

/-- The stripped, non-blank lines considered by `infer_brand_from_text`
(`lines[:6]`). -/
def inferLines (txt : String) : List (List Char) :=
  (((pySplitlines txt).map pyStripL).filter (fun l => ¬ l.isEmpty)).take 6

def infer_brand_from_text (txt : String) : String :=
  match (inferLines txt).find? lineAccepts with
  | some l => String.mk l
  | none => "Unknown Brand"

/-- Amex `robust_get(url)` (lines 173–178): a single `driver.get` guarded by
`except WebDriverException` — the boolean outcome of the one browser call is
returned and nothing propagates. -/
def robust_get (ok : Bool) : Bool := ok

end Amex

/-! # Claim theorems -/

section Claims

open Chase

set_option maxRecDepth 200000

/-- C1, counterexample.  With 900 pending rows and chunk size 400, let the
second `append_rows` call raise.  The flush makes exactly two calls (sizes
400 and 400), no further chunk is attempted, and afterwards *both* buffers
are empty even though row `400` (and every row of the 2nd and 3rd chunk) was
pending and never successfully appended: the `finally: APPEND_BUFFER = []`
discards it, refuting "every row not yet successfully appended remains queued
in the buffer … no row is ever discarded on sink failure". -/
theorem flush_buffer_midfail_discards_pending :
    (Chase.flush_buffer (fun k => decide (k = 1)) 400 (List.range 900) ([] : List ℕ)).2.1.map
        List.length = [400, 400] ∧
    (Chase.flush_buffer (fun k => decide (k = 1)) 400 (List.range 900) ([] : List ℕ)).2.2 = true ∧
    (Chase.flush_buffer (fun k => decide (k = 1)) 400 (List.range 900) ([] : List ℕ)).1.1 = [] ∧
    (Chase.flush_buffer (fun k => decide (k = 1)) 400 (List.range 900) ([] : List ℕ)).1.2 = [] ∧
    (400 : ℕ) ∈ List.range 900 ∧
    (400 : ℕ) ∉ (Chase.flushAppended
        (Chase.flush_buffer (fun k => decide (k = 1)) 400 (List.range 900) ([] : List ℕ)).2.1
        (Chase.flush_buffer (fun k => decide (k = 1)) 400 (List.range 900) ([] : List ℕ)).2.2).flatten := by
  decide

/-- C1, amended.  With a buffer of 900 rows and chunk size 400 and a healthy
sink, `flush_buffer` performs exactly 3 append calls with chunk sizes
[400, 400, 100] in order, appending every row; if the 2nd call fails, the
loop stops after that call (2 calls, sizes [400, 400]), only the first chunk
was appended, and the `finally` clause clears `APPEND_BUFFER` unconditionally
— the rows not yet appended are discarded, not requeued for the next flush. -/
theorem flush_buffer_chunks_and_clears :
    ((Chase.flush_buffer (fun _ => false) 400 (List.range 900) ([] : List ℕ)).2.1.map
        List.length = [400, 400, 100] ∧
      (Chase.flush_buffer (fun _ => false) 400 (List.range 900) ([] : List ℕ)).2.1.flatten =
        List.range 900 ∧
      (Chase.flush_buffer (fun _ => false) 400 (List.range 900) ([] : List ℕ)).2.2 = false ∧
      (Chase.flush_buffer (fun _ => false) 400 (List.range 900) ([] : List ℕ)).1.1 = []) ∧
    ((Chase.flush_buffer (fun k => decide (k = 1)) 400 (List.range 900) ([] : List ℕ)).2.1.map
        List.length = [400, 400] ∧
      (Chase.flushAppended
          (Chase.flush_buffer (fun k => decide (k = 1)) 400 (List.range 900) ([] : List ℕ)).2.1
          (Chase.flush_buffer (fun k => decide (k = 1)) 400 (List.range 900) ([] : List ℕ)).2.2).flatten =
        List.range 400 ∧
      (Chase.flush_buffer (fun k => decide (k = 1)) 400 (List.range 900) ([] : List ℕ)).1.1 = []) := by
  decide

/-- C3, counterexample.  The input `"zzz"` contains no parseable expiration
phrase (no accepted absolute format, no relative days phrase — witnessed by
the Chase parser returning `none` for any run date), yet the Amex
normalization function `normalize_exp` returns the raw input `"zzz"`, not the
empty string. -/
theorem normalize_exp_returns_raw_not_empty :
    Amex.normalize_exp "zzz" = "zzz" ∧ ¬ Amex.normalize_exp "zzz" = "" ∧
    Chase.try_parse_date_any ⟨2024, 1, 1⟩ "zzz" = none := by
  decide

/-- C3, amended.  For the Chase script's `normalize_date_out`: every input
with no parseable expiration phrase (i.e. `try_parse_date_any` yields
nothing) normalizes to the empty string, and the function is total (never an
error).  The Amex `normalize_exp` is also total but returns the stripped raw
input unchanged instead of the empty string. -/
theorem normalize_date_out_empty_when_unparseable (today : PyDate) (s : String)
    (h : Chase.try_parse_date_any today s = none) :
    Chase.normalize_date_out today s = "" := by
  simp [Chase.normalize_date_out, h]

/-- Witness for `normalize_date_out_empty_when_unparseable` at a concrete
unparseable input. -/
theorem normalize_date_out_empty_when_unparseable_witness :
    Chase.try_parse_date_any ⟨2024, 1, 1⟩ "no date here" = none ∧
    Chase.normalize_date_out ⟨2024, 1, 1⟩ "no date here" = "" :=
  ⟨by decide, normalize_date_out_empty_when_unparseable ⟨2024, 1, 1⟩ "no date here" (by decide)⟩

/-- C4.  On run date 2024-01-01, the extraction input `"expires in 30 days"`
(matched by the relative-days rule of `parse_limits_local_expiration` and
converted by `normalize_date_out`) yields exactly the canonical expiration
string `"Jan 31, 2024"`. -/
theorem relative_30_days_from_2024_01_01 :
    (Chase.parse_limits_local_expiration ⟨2024, 1, 1⟩ "expires in 30 days" "").2.2.1 =
      "Jan 31, 2024" ∧
    Chase.normalize_date_out ⟨2024, 1, 1⟩ "expires in 30 days" = "Jan 31, 2024" := by
  decide

/-- C5.  On the fixture sheet `[header, A, B, A, C, B]` the duplicate-removal
pass emits exactly 2 delete requests — for rows 2 and 1, i.e. precisely the
*non-last* occurrences of B and A — so the survivors `[A, C, B]` are the last
occurrences in original order and each distinct value keeps exactly one row;
the spec's forward scan keeps `[A, B, C]`, also exactly one survivor per
distinct value: the survivor count per value is direction-independent. -/
theorem dedupe_fixture_two_removed_last_kept :
    dedupe_rows ["Hdr", "A", "B", "A", "C", "B"] = 2 ∧
    dedupe_requests ["Hdr", "A", "B", "A", "C", "B"] = [2, 1] ∧
    sheetAfterDedupe ["Hdr", "A", "B", "A", "C", "B"] = ["Hdr", "A", "C", "B"] ∧
    ((sheetAfterDedupe ["Hdr", "A", "B", "A", "C", "B"]).count "A" = 1 ∧
      (sheetAfterDedupe ["Hdr", "A", "B", "A", "C", "B"]).count "B" = 1 ∧
      (sheetAfterDedupe ["Hdr", "A", "B", "A", "C", "B"]).count "C" = 1) ∧
    dedupeForwardSurvivors ["A", "B", "A", "C", "B"] [] = ["A", "B", "C"] ∧
    ((dedupeForwardSurvivors ["A", "B", "A", "C", "B"] []).count "A" = 1 ∧
      (dedupeForwardSurvivors ["A", "B", "A", "C", "B"] []).count "B" = 1 ∧
      (dedupeForwardSurvivors ["A", "B", "A", "C", "B"] []).count "C" = 1) := by
  decide

/-! ## Loop lemmas shared by the termination and dedup claims -/

/-- Iterations that pick a tile, i.e. increment `safety_clicks`. -/
def countPicks {α : Type} : List (TileEvent α) → ℕ
  | [] => 0
  | .empty :: es => countPicks es
  | .clickFail :: es => countPicks es + 1
  | .extracted _ :: es => countPicks es + 1

@[simp] theorem queueRow_safety {α : Type} [DecidableEq α] (st : LoopState α) (r : α) :
    (queueRow st r).safety = st.safety := by
  unfold queueRow; split <;> rfl

@[simp] theorem queueRow_idle {α : Type} [DecidableEq α] (st : LoopState α) (r : α) :
    (queueRow st r).idle = st.idle := by
  unfold queueRow; split <;> rfl

theorem runLoop_append {α : Type} [DecidableEq α] (xs ys : List (TileEvent α))
    (st : LoopState α) :
    runLoop st (xs ++ ys) =
      if (runLoop st xs).2 then runLoop st xs else runLoop (runLoop st xs).1 ys := by
  induction xs generalizing st with
  | nil => simp [runLoop]
  | cons e es ih =>
    rw [List.cons_append]
    cases h : stepEvent st e with
    | mk st' b =>
      cases b with
      | true => simp [runLoop, h]
      | false => simp [runLoop, h, ih st']

theorem runLoop_three_empty {α : Type} [DecidableEq α] (m : LoopState α)
    (rest : List (TileEvent α)) (h : m.idle = 0) :
    runLoop m (.empty :: .empty :: .empty :: rest) = ({ m with idle := 3 }, true) := by
  obtain ⟨ex, ks, rs, idl, sf⟩ := m
  simp only at h
  subst h
  rfl

theorem runLoop_no_break_picks_bound {α : Type} [DecidableEq α] :
    ∀ (evs : List (TileEvent α)) (st : LoopState α),
      (runLoop st evs).2 = false →
      countPicks evs = 0 ∨ countPicks evs + st.safety ≤ 200 := by
  intro evs
  induction evs with
  | nil => intro st _; exact Or.inl rfl
  | cons e es ih =>
    intro st h
    cases e with
    | empty =>
      by_cases hb : 3 ≤ st.idle + 1
      · simp [runLoop, stepEvent, hb] at h
      · simp only [runLoop, stepEvent, hb, decide_eq_false hb] at h
        rcases ih _ h with h0 | hle
        · exact Or.inl (by simpa [countPicks] using h0)
        · exact Or.inr (by simpa [countPicks] using hle)
    | clickFail =>
      by_cases hb : 200 < st.safety + 1
      · simp [runLoop, stepEvent, hb] at h
      · simp only [runLoop, stepEvent, hb, decide_eq_false hb] at h
        rcases ih _ h with h0 | hle
        · right; simp only [countPicks, h0]; omega
        · right; simp only [countPicks]; simp only at hle; omega
    | extracted r =>
      by_cases hb : 200 < st.safety + 1
      · simp [runLoop, stepEvent, hb] at h
      · simp only [runLoop, stepEvent, hb, if_false] at h
        rcases ih _ h with h0 | hle
        · right; simp only [countPicks, h0]; omega
        · right; simp only [countPicks]; simp only [queueRow_safety] at hle; omega

/-- C6.  (a) If, at any point where the loop is live (no break yet, idle
counter reset to zero), the element finder returns an empty collection on 3
consecutive polls, the loop breaks there — whatever the page would do later
(`rest`) is never consumed — and the recorded per-card rows are exactly the
rows extracted before the idle polls began.  (b) The loop also terminates
whenever a trace reaches the 201st pick: the per-pass safety cap on total
clicks forces a break. -/
theorem enroll_loop_idle_and_safety_termination {α : Type} [DecidableEq α] :
    (∀ (pre rest : List (TileEvent α)) (st0 : LoopState α),
      (runLoop st0 pre).2 = false → ((runLoop st0 pre).1).idle = 0 →
      runLoop st0 (pre ++ (.empty :: .empty :: .empty :: rest)) =
          ({ (runLoop st0 pre).1 with idle := 3 }, true) ∧
        ((runLoop st0 (pre ++ (.empty :: .empty :: .empty :: rest))).1).perCardRows =
          ((runLoop st0 pre).1).perCardRows) ∧
    (∀ (ex : List α) (evs : List (TileEvent α)),
      201 ≤ countPicks evs → (runLoop (initLoopState ex) evs).2 = true) := by
  constructor
  · intro pre rest st0 h1 h2
    have hap := runLoop_append pre (.empty :: .empty :: .empty :: rest) st0
    rw [h1] at hap
    simp only [Bool.false_eq_true, if_false] at hap
    have h3 := runLoop_three_empty (runLoop st0 pre).1 rest h2
    refine ⟨by rw [hap, h3], by rw [hap, h3]⟩
  · intro ex evs h201
    cases hb : (runLoop (initLoopState ex) evs).2 with
    | true => rfl
    | false =>
      exfalso
      rcases runLoop_no_break_picks_bound evs _ hb with h0 | hle
      · omega
      · simp only [initLoopState] at hle; omega

/-- Witness for `enroll_loop_idle_and_safety_termination`: one productive
iteration then three empty polls; and a trace of 201 picks. -/
theorem enroll_loop_idle_and_safety_termination_witness :
    ((runLoop (initLoopState ([] : List ℕ)) [TileEvent.extracted 0]).2 = false ∧
      ((runLoop (initLoopState ([] : List ℕ)) [TileEvent.extracted 0]).1).idle = 0 ∧
      runLoop (initLoopState ([] : List ℕ))
          ([TileEvent.extracted 0] ++ (.empty :: .empty :: .empty :: [])) =
        ({ (runLoop (initLoopState ([] : List ℕ)) [TileEvent.extracted 0]).1 with idle := 3 },
          true)) ∧
    (201 ≤ countPicks (List.replicate 201 (TileEvent.extracted (0 : ℕ))) ∧
      (runLoop (initLoopState ([] : List ℕ)) (List.replicate 201 (TileEvent.extracted 0))).2 =
        true) :=
  ⟨⟨by decide, by decide,
      ((enroll_loop_idle_and_safety_termination (α := ℕ)).1 [TileEvent.extracted 0] []
          (initLoopState []) (by decide) (by decide)).1⟩,
    by decide,
    (enroll_loop_idle_and_safety_termination (α := ℕ)).2 []
      (List.replicate 201 (TileEvent.extracted 0)) (by decide)⟩

/-! ## Navigation -/

theorem robustGetGo_spec (g : ℕ → Bool) :
    ∀ (t k : ℕ), robustGetGo g t k = true ↔ ∃ i, i < 2 * t ∧ g (k + i) = true := by
  intro t
  induction t with
  | zero => intro k; simp [robustGetGo]
  | succ t ih =>
    intro k
    simp only [robustGetGo]
    by_cases h0 : g k = true
    · simp only [h0, if_true, true_iff]
      exact ⟨0, by omega, by simpa using h0⟩
    · rw [Bool.not_eq_true] at h0
      rw [h0]
      simp only [Bool.false_eq_true, if_false]
      by_cases h1 : g (k + 1) = true
      · simp only [h1, if_true, true_iff]
        exact ⟨1, by omega, h1⟩
      · rw [Bool.not_eq_true] at h1
        rw [h1]
        simp only [Bool.false_eq_true, if_false]
        rw [ih (k + 2)]
        constructor
        · rintro ⟨i, hi, hgi⟩
          refine ⟨i + 2, by omega, ?_⟩
          have he : k + (i + 2) = k + 2 + i := by omega
          rw [he]; exact hgi
        · rintro ⟨i, hi, hgi⟩
          rcases Nat.lt_or_ge i 2 with hlt | hge
          · interval_cases i
            · rw [Nat.add_zero] at hgi; rw [hgi] at h0; cases h0
            · rw [hgi] at h1; cases h1
          · refine ⟨i - 2, by omega, ?_⟩
            have he : k + 2 + (i - 2) = k + i := by omega
            rw [he]; exact hgi

/-- C8.  For every sequence of per-call browser outcomes `g` (even indices
are direct navigations, odd indices the script fallback, exactly as the
attempt loop of `robust_get` interleaves them) and every retry count, the
Chase `robust_get` is a total boolean function: `True` exactly when one of
the `2 * max 1 tries` attempted calls succeeds, `False` when all retries are
exhausted — no browser failure propagates.  The Amex `robust_get` likewise
returns its single attempt's outcome as a boolean. -/
theorem robust_get_boolean_outcome (g : ℕ → Bool) (tries : ℕ) :
    (Chase.robust_get g tries = true ↔ ∃ i, i < 2 * max 1 tries ∧ g i = true) ∧
    (∀ ok : Bool, Amex.robust_get ok = ok) := by
  constructor
  · simpa using robustGetGo_spec g (max 1 tries) 0
  · intro ok; rfl

/-! ## Queue-guard invariants: rows queued by the loop avoid the baseline -/

theorem runLoop_rows_spec {α : Type} [DecidableEq α] :
    ∀ (evs : List (TileEvent α)) (st : LoopState α),
      ∃ Δ : List α,
        ((runLoop st evs).1).perCardRows = st.perCardRows ++ Δ ∧
        (∀ r ∈ Δ, r ∉ st.existing) ∧
        (∀ x ∈ st.existing, x ∈ ((runLoop st evs).1).existing) := by
  intro evs
  induction evs with
  | nil =>
    intro st
    exact ⟨[], by simp [runLoop], by simp, fun x hx => by simpa [runLoop] using hx⟩
  | cons e es ih =>
    intro st
    cases e with
    | empty =>
      by_cases hb : 3 ≤ st.idle + 1
      · exact ⟨[], by simp [runLoop, stepEvent, hb], by simp,
          fun x hx => by simpa [runLoop, stepEvent, hb] using hx⟩
      · have h := ih { st with idle := st.idle + 1 }
        simpa [runLoop, stepEvent, hb, decide_eq_false hb] using h
    | clickFail =>
      by_cases hb : 200 < st.safety + 1
      · exact ⟨[], by simp [runLoop, stepEvent, hb], by simp,
          fun x hx => by simpa [runLoop, stepEvent, hb] using hx⟩
      · have h := ih { st with idle := 0, safety := st.safety + 1 }
        simpa [runLoop, stepEvent, hb, decide_eq_false hb] using h
    | extracted r =>
      by_cases hb : 200 < st.safety + 1
      · exact ⟨[], by simp [runLoop, stepEvent, hb], by simp,
          fun x hx => by simpa [runLoop, stepEvent, hb] using hx⟩
      · have hloop : runLoop st (TileEvent.extracted r :: es) =
            runLoop (queueRow { st with idle := 0, safety := st.safety + 1 } r) es := by
          simp [runLoop, stepEvent, hb]
        by_cases hq : r ∈ st.existing ∨ r ∈ st.perCardKeys
        · have hqr : queueRow { st with idle := 0, safety := st.safety + 1 } r =
              { st with idle := 0, safety := st.safety + 1 } := by
            simp [queueRow, hq]
          rw [hqr] at hloop
          obtain ⟨Δ, h1, h2, h3⟩ := ih { st with idle := 0, safety := st.safety + 1 }
          refine ⟨Δ, ?_, ?_, ?_⟩
          · rw [hloop]; simpa using h1
          · intro x hx; simpa using h2 x hx
          · intro x hx; rw [hloop]; exact h3 x (by simpa using hx)
        · have hqr : queueRow { st with idle := 0, safety := st.safety + 1 } r =
              LoopState.mk (r :: st.existing) (r :: st.perCardKeys)
                (st.perCardRows ++ [r]) 0 (st.safety + 1) := by
            simp [queueRow, hq]
          rw [hqr] at hloop
          obtain ⟨Δ', h1, h2, h3⟩ := ih (LoopState.mk (r :: st.existing) (r :: st.perCardKeys)
            (st.perCardRows ++ [r]) 0 (st.safety + 1))
          refine ⟨r :: Δ', ?_, ?_, ?_⟩
          · rw [hloop, h1]; simp
          · intro x hx
            rcases List.mem_cons.mp hx with hx | hx
            · subst hx
              exact fun hmem => hq (Or.inl hmem)
            · exact fun hmem => h2 x hx (List.mem_cons_of_mem r hmem)
          · intro x hx
            rw [hloop]
            exact h3 x (List.mem_cons_of_mem r hx)

theorem processCard_spec {α : Type} [DecidableEq α] (ex0 : List α) (st : SheetState α)
    (ex : List α) (c : CardRun α) (hsub : ∀ x ∈ ex0, x ∈ ex) :
    (∀ x ∈ ex0, x ∈ (processCard st ex c).2.1) ∧
    (∀ row ∈ (processCard st ex c).2.2, row ∉ ex0) ∧
    (∀ k ∈ ex0, ((processCard st ex c).1.sink).count k = (st.sink).count k ∧
                ((processCard st ex c).1.buffer).count k = (st.buffer).count k) := by
  by_cases hn : c.navOk = true
  · obtain ⟨Δ, h1, h2, h3⟩ := runLoop_rows_spec c.events (initLoopState ex)
    have hrows : (enroll_all_offers_for_current_card ex c.events).perCardRows = Δ := by
      simpa [enroll_all_offers_for_current_card, initLoopState] using h1
    have hex : ∀ x ∈ ex0, x ∈ (enroll_all_offers_for_current_card ex c.events).existing :=
      fun x hx => h3 x (hsub x hx)
    have hΔ0 : ∀ k ∈ ex0, k ∉ Δ := fun k hk hmem => h2 k hmem (hsub k hk)
    have hcnt : ∀ k ∈ ex0, Δ.count k = 0 := fun k hk => List.count_eq_zero.mpr (hΔ0 k hk)
    by_cases hΔ : (enroll_all_offers_for_current_card ex c.events).perCardRows = []
    · have hcard : processCard st ex c =
          ({ st with current := [] }, (enroll_all_offers_for_current_card ex c.events).existing,
            []) := by
        simp [processCard, hn, hΔ]
      rw [hcard]
      exact ⟨hex, by simp, fun k hk => ⟨rfl, rfl⟩⟩
    · by_cases ha : c.appendOk = true
      · have hcard : processCard st ex c =
            ({ st with sink := st.sink ++ Δ, current := [] },
              (enroll_all_offers_for_current_card ex c.events).existing, Δ) := by
          simp [processCard, hn, hΔ, ha, hrows]
        rw [hcard]
        refine ⟨hex, fun row hrow hmem => hΔ0 row hmem hrow, ?_⟩
        intro k hk
        refine ⟨?_, rfl⟩
        simp only [List.count_append, hcnt k hk, Nat.add_zero]
      · have ha' : c.appendOk = false := Bool.not_eq_true _ ▸ ha
        have hcard : processCard st ex c =
            ({ st with buffer := st.buffer ++ Δ, current := Δ },
              (enroll_all_offers_for_current_card ex c.events).existing, Δ) := by
          simp [processCard, hn, hΔ, ha', hrows]
        rw [hcard]
        refine ⟨hex, fun row hrow hmem => hΔ0 row hmem hrow, ?_⟩
        intro k hk
        refine ⟨rfl, ?_⟩
        simp only [List.count_append, hcnt k hk, Nat.add_zero]
  · have hn' : c.navOk = false := Bool.not_eq_true _ ▸ hn
    have hcard : processCard st ex c = (st, ex, []) := by
      simp [processCard, hn']
    rw [hcard]
    exact ⟨hsub, by simp, fun k hk => ⟨rfl, rfl⟩⟩

theorem cardsFold_spec {α : Type} [DecidableEq α] (ex0 : List α) (env : ℕ → CardRun α) :
    ∀ (idxs : List ℕ) (sh : SheetState α) (ex : List α) (qs : List (List α)),
      (∀ x ∈ ex0, x ∈ ex) →
      (∀ q ∈ qs, ∀ row ∈ q, row ∉ ex0) →
      (∀ x ∈ ex0, x ∈ (cardsFold env idxs (sh, ex, qs)).2.1) ∧
      (∀ q ∈ (cardsFold env idxs (sh, ex, qs)).2.2, ∀ row ∈ q, row ∉ ex0) ∧
      (∀ k ∈ ex0, ((cardsFold env idxs (sh, ex, qs)).1.sink).count k = (sh.sink).count k ∧
                  ((cardsFold env idxs (sh, ex, qs)).1.buffer).count k = (sh.buffer).count k) ∧
      (cardsFold env idxs (sh, ex, qs)).2.2.length = qs.length + idxs.length := by
  intro idxs
  induction idxs with
  | nil =>
    intro sh ex qs hsub hqs
    exact ⟨hsub, hqs, fun k _ => ⟨rfl, rfl⟩, by simp [cardsFold]⟩
  | cons i idxs ih =>
    intro sh ex qs hsub hqs
    have hstep : cardsFold env (i :: idxs) (sh, ex, qs) =
        cardsFold env idxs ((processCard sh ex (env i)).1, (processCard sh ex (env i)).2.1,
          qs ++ [(processCard sh ex (env i)).2.2]) := by
      simp [cardsFold]
    obtain ⟨p1, p2, p3⟩ := processCard_spec ex0 sh ex (env i) hsub
    have hqs' : ∀ q ∈ qs ++ [(processCard sh ex (env i)).2.2], ∀ row ∈ q, row ∉ ex0 := by
      intro q hq
      rcases List.mem_append.mp hq with h | h
      · exact hqs q h
      · rw [List.mem_singleton.mp h]
        exact p2
    obtain ⟨r1, r2, r3, r4⟩ := ih _ _ _ p1 hqs'
    rw [hstep]
    refine ⟨r1, r2, ?_, ?_⟩
    · intro k hk
      obtain ⟨c1, c2⟩ := r3 k hk
      obtain ⟨d1, d2⟩ := p3 k hk
      exact ⟨c1.trans d1, c2.trans d2⟩
    · rw [r4]
      simp only [List.length_append, List.length_cons, List.length_nil]
      omega

theorem process_cards_spec {α : Type} [DecidableEq α] (env : ℕ → CardRun α) (st : SheetState α) :
    (∀ q ∈ (process_cards env st).2, ∀ row ∈ q, row ∉ st.sink) ∧
    (∀ k ∈ st.sink, ((process_cards env st).1.sink).count k = (st.sink).count k ∧
                    ((process_cards env st).1.buffer).count k = (st.buffer).count k) ∧
    (process_cards env st).2.length = ACCOUNT_IDS.length := by
  obtain ⟨r1, r2, r3, r4⟩ := cardsFold_spec st.sink env (List.range ACCOUNT_IDS.length) st st.sink
    [] (fun x hx => hx) (by simp)
  refine ⟨?_, ?_, ?_⟩
  · intro q hq
    exact r2 q hq
  · intro k hk
    exact r3 k hk
  · show (cardsFold env (List.range ACCOUNT_IDS.length) (st, st.sink, [])).2.2.length = _
    rw [r4]
    simp

/-- C2.  For every dedup key `k` already present in the sink when the run
starts (the baseline is loaded once per `process_cards` pass from the sink),
no pass of the enrollment loop queues a row with key `k` — neither within one
pass (per-card keys and the shared in-run set) nor across the two passes of
the same run — and the number of occurrences of `k` in the sink and in the
append buffer is exactly what it was at run start: no second row with key `k`
is ever queued or appended. -/
theorem enrollment_dedup_key_never_requeued {α : Type} [DecidableEq α] (k : α)
    (env1 env2 : ℕ → CardRun α) (st0 : SheetState α) (hk : k ∈ st0.sink) :
    (∀ q ∈ (process_cards env1 st0).2, k ∉ q) ∧
    (∀ q ∈ (process_cards env2 (process_cards env1 st0).1).2, k ∉ q) ∧
    ((process_cards env2 (process_cards env1 st0).1).1.sink).count k = (st0.sink).count k ∧
    ((process_cards env2 (process_cards env1 st0).1).1.buffer).count k =
      (st0.buffer).count k := by
  obtain ⟨hq1, hc1, -⟩ := process_cards_spec env1 st0
  have hk1 : k ∈ (process_cards env1 st0).1.sink := by
    by_contra hno
    have h0 : ((process_cards env1 st0).1.sink).count k = 0 := List.count_eq_zero.mpr hno
    rw [(hc1 k hk).1] at h0
    exact (List.count_eq_zero.mp h0) hk
  obtain ⟨hq2, hc2, -⟩ := process_cards_spec env2 (process_cards env1 st0).1
  refine ⟨fun q hq hkq => hq1 q hq k hkq hk, fun q hq hkq => hq2 q hq k hkq hk1, ?_, ?_⟩
  · rw [(hc2 k hk1).1, (hc1 k hk).1]
  · rw [(hc2 k hk1).2, (hc1 k hk).2]

/-- Concrete fixture shared by the run-level witnesses: a sink holding the
row `7`, and an environment whose every card extracts the already-present row
`7` and a fresh row `8`. -/
def cSt0 : SheetState ℕ := ⟨[7], [], []⟩

def cEnv : ℕ → CardRun ℕ :=
  fun _ => ⟨true, [TileEvent.extracted 7, TileEvent.extracted 8], true⟩

/-- Witness for `enrollment_dedup_key_never_requeued` on the concrete
fixture. -/
theorem enrollment_dedup_key_never_requeued_witness :
    (7 : ℕ) ∈ cSt0.sink ∧
    ((∀ q ∈ (process_cards cEnv cSt0).2, (7 : ℕ) ∉ q) ∧
      (∀ q ∈ (process_cards cEnv (process_cards cEnv cSt0).1).2, (7 : ℕ) ∉ q) ∧
      ((process_cards cEnv (process_cards cEnv cSt0).1).1.sink).count 7 =
        (cSt0.sink).count 7 ∧
      ((process_cards cEnv (process_cards cEnv cSt0).1).1.buffer).count 7 =
        (cSt0.buffer).count 7) :=
  ⟨by decide, enrollment_dedup_key_never_requeued 7 cEnv cEnv cSt0 (by decide)⟩

/-! ## Brand extraction (C7) -/

/-- Modelled from the spec: a "percentage pattern" — digits followed by a
percent sign — the shape the spec says brand extraction never returns. -/
def specPercentPat (n : ℕ) : List RxItem := clsPlus isAsciiDigit n ++ [csLit "%"]

/-- C7, counterexample.  Brand extraction *can* return currency- and
percentage-shaped strings: the Amex `infer_brand_from_text` returns the line
`"$25"` (which matches the Amex code's own currency pattern `MONEY_RE`)
because the money filter only skips a line when it also contains a keyword;
the Chase `extract_brand_smart` returns the injected-script value
`"$10 cash back"` unfiltered because the JS-path guard regex is written with
doubled backslashes and can only match text containing a literal backslash;
and the heading path returns `"50% off"` because no path filters
percentages. -/
theorem brand_extraction_returns_money_shaped_text :
    Amex.infer_brand_from_text "$25" = "$25" ∧ hasMatch moneyPat "$25" = true ∧
    Chase.extract_brand_smart "$10 cash back" [] [] "" = "$10 cash back" ∧
    hasMatch moneyPat "$10 cash back" = true ∧
    Chase.extract_brand_smart "" [] ["About this deal", "50% off"] "" = "50% off" ∧
    hasMatch specPercentPat "50% off" = true := by
  decide

/-- C7, amended.  Brand extraction can return currency- or percentage-shaped
strings (the guards only exclude "cash back"/"$digit"-shaped text on some
paths and the JS-path guard is inert), but on the pure-fallback path — the
injected script yields nothing, no selector text passes its filter, no
heading passes its filter and length bounds, and the tile guess is blank (for
Amex: every candidate line is skipped) — both extractors return exactly the
constant sentinel `"Unknown Brand"`. -/
theorem brand_extraction_pure_fallback_sentinel
    (jsVal : String) (selTexts headTexts : List String) (guess txt : String)
    (hjs : jsVal = "" ∨ hasMatch brandFilterBrokenPat jsVal = true)
    (hsel : ∀ t ∈ selTexts, Chase.selAccepts t = false)
    (hhead : ∀ t ∈ headTexts, Chase.headAccepts t = false)
    (hguess : pyStrip guess = "")
    (hlines : ∀ l ∈ Amex.inferLines txt, Amex.lineAccepts l = false) :
    Chase.extract_brand_smart jsVal selTexts headTexts guess = "Unknown Brand" ∧
    Amex.infer_brand_from_text txt = "Unknown Brand" := by
  constructor
  · have hcond : ¬ (jsVal ≠ "" ∧ ¬ hasMatch brandFilterBrokenPat jsVal) := by
      rcases hjs with h | h
      · exact fun hc => hc.1 h
      · exact fun hc => hc.2 h
    have hfind1 : selTexts.find? Chase.selAccepts = none := by
      rw [List.find?_eq_none]
      intro t ht
      rw [hsel t ht]
      exact Bool.false_ne_true
    have hfind2 : (headTexts.take 6).find? Chase.headAccepts = none := by
      rw [List.find?_eq_none]
      intro t ht
      rw [hhead t (List.mem_of_mem_take ht)]
      exact Bool.false_ne_true
    simp only [Chase.extract_brand_smart, hfind1, hfind2, hguess, Chase.BRAND_FALLBACK]
    split
    · rename_i hc
      exact absurd ⟨hc.1, hc.2⟩ hcond
    · simp
  · have hfind : (Amex.inferLines txt).find? Amex.lineAccepts = none := by
      rw [List.find?_eq_none]
      intro l hl
      rw [hlines l hl]
      exact Bool.false_ne_true
    simp [Amex.infer_brand_from_text, hfind]

/-- Witness for `brand_extraction_pure_fallback_sentinel` on concrete
fallback inputs. -/
theorem brand_extraction_pure_fallback_sentinel_witness :
    (("" : String) = "" ∨ hasMatch brandFilterBrokenPat "" = true) ∧
    (∀ t ∈ ["$5 cash back", " "], Chase.selAccepts t = false) ∧
    (∀ t ∈ ["About this deal"], Chase.headAccepts t = false) ∧
    pyStrip " " = "" ∧
    (∀ l ∈ Amex.inferLines "View Details\nTerms apply", Amex.lineAccepts l = false) ∧
    (Chase.extract_brand_smart "" ["$5 cash back", " "] ["About this deal"] " " =
        "Unknown Brand" ∧
      Amex.infer_brand_from_text "View Details\nTerms apply" = "Unknown Brand") :=
  ⟨Or.inl rfl, by decide, by decide, by decide, by decide,
    brand_extraction_pure_fallback_sentinel "" ["$5 cash back", " "] ["About this deal"] " "
      "View Details\nTerms apply" (Or.inl rfl) (by decide) (by decide) (by decide) (by decide)⟩

/-! ## The run orchestrator (C9, C10) -/

theorem flush_buffer_clears {α : Type} (fails : ℕ → Bool) (c : ℕ) (buf cur : List α) :
    (flush_buffer fails c buf cur).1.1 = [] ∧ (flush_buffer fails c buf cur).1.2 = [] := by
  unfold flush_buffer
  by_cases h : (buf ++ cur).isEmpty
  · simp only [h, if_true]
    exact ⟨List.isEmpty_iff.mp h, trivial⟩
  · simp [h]

/-- C9.  For every run input — a failed post-login wait, normal completion,
an operator interrupt, or a fatal error at any stage — the orchestrator's
outer boundary converts the outcome into a normal return (`raised = false`),
and the `finally` block runs `flush_buffer` before exit: the flush is always
attempted and afterwards no pending row remains buffered. -/
theorem main_always_flushes_never_raises {α : Type} [DecidableEq α] (inp : RunInput α)
    (st0 : SheetState α) :
    (mainRun inp st0).raised = false ∧ (mainRun inp st0).flushed = true ∧
    (mainRun inp st0).final.buffer = [] ∧ (mainRun inp st0).final.current = [] := by
  unfold mainRun
  split
  · refine ⟨rfl, rfl, ?_, ?_⟩
    · exact (flush_buffer_clears _ _ _ _).1
    · exact (flush_buffer_clears _ _ _ _).2
  · refine ⟨rfl, rfl, ?_, ?_⟩
    · exact (flush_buffer_clears _ _ _ _).1
    · exact (flush_buffer_clears _ _ _ _).2

/-- C10.  In every run whose post-login wait succeeds and whose body is not
interrupted, `main` executes the per-account card loop `process_cards`
exactly twice in sequence (the source calls it at lines 1203 and 1206); each
pass visits every identifier of the fixed four-entry account list, producing
one queued-rows entry per account; and only the dedup key check keeps the
second pass from re-producing rows: everything the second pass queues was
absent from the sink as it stood when the second pass loaded its baseline. -/
theorem main_runs_card_loop_twice {α : Type} [DecidableEq α] (inp : RunInput α)
    (st0 : SheetState α) (h1 : inp.postLoginOk = true)
    (h2 : inp.outcome = RunOutcome.normal) :
    (mainRun inp st0).passesRun = 2 ∧
    (mainRun inp st0).queued1.length = ACCOUNT_IDS.length ∧
    (mainRun inp st0).queued2.length = ACCOUNT_IDS.length ∧
    ACCOUNT_IDS.length = 4 ∧
    (∀ q ∈ (mainRun inp st0).queued2, ∀ row ∈ q,
      row ∉ (mainRun inp st0).sheetAfterPass1.sink) := by
  have e1 : mainRun inp st0 =
      { raised := false, flushed := true, passesRun := 2,
        queued1 := (process_cards inp.env1 st0).2,
        queued2 := (process_cards inp.env2 (process_cards inp.env1 st0).1).2,
        sheetAfterPass1 := (process_cards inp.env1 st0).1,
        final := finallyFlush inp.flushFails
          (process_cards inp.env2 (process_cards inp.env1 st0).1).1 } := by
    unfold mainRun
    rw [h2]
    simp [h1]
  rw [e1]
  obtain ⟨-, -, hl1⟩ := process_cards_spec inp.env1 st0
  obtain ⟨hq2, -, hl2⟩ := process_cards_spec inp.env2 (process_cards inp.env1 st0).1
  exact ⟨rfl, hl1, hl2, rfl, hq2⟩

def cInp : RunInput ℕ :=
  { postLoginOk := true, env1 := cEnv, env2 := cEnv, outcome := RunOutcome.normal,
    cutPoint := 0, flushFails := fun _ => false }

/-- Witness for `main_runs_card_loop_twice` on the concrete fixture run. -/
theorem main_runs_card_loop_twice_witness :
    (cInp.postLoginOk = true ∧ cInp.outcome = RunOutcome.normal) ∧
    ((mainRun cInp cSt0).passesRun = 2 ∧
      (mainRun cInp cSt0).queued1.length = ACCOUNT_IDS.length ∧
      (mainRun cInp cSt0).queued2.length = ACCOUNT_IDS.length ∧
      ACCOUNT_IDS.length = 4 ∧
      (∀ q ∈ (mainRun cInp cSt0).queued2, ∀ row ∈ q,
        row ∉ (mainRun cInp cSt0).sheetAfterPass1.sink)) :=
  ⟨⟨rfl, rfl⟩, main_runs_card_loop_twice cInp cSt0 rfl rfl⟩

end Claims

end Offers
